import Mathlib

/- Verification development for the Medi-Scribe Enterprise patient kiosk
   (src/app.py).  The AI-response parsing block, the specialist
   normalization, the grounding-source extraction and the booking workflow
   are embedded as executable Lean functions over `List Char` / `String`,
   following the Python source line by line.  External services (the model,
   the calendar API, Firestore, object storage) appear only through the
   values they return to the workflow. -/

namespace MediScribe

/-! ## Python string primitives, embedded over `List Char`

Python strings are sequences of characters; we embed the operations the
source uses (`in`, `split(sep)`, `split(sep, 1)`, `strip()`,
`split(chr(10))[0]`, `replace`) as functions on `List Char`. -/

/-- Python `s.split(sep, 1)` for a separator that occurs in `s`:
`breakOn sep l = some (pre, post)` splits at the first occurrence of
`sep`, scanning left to right; `none` when `sep` does not occur
(matching Python `sep in s` being false; all separators used by the
source are non-empty). -/
def breakOn (sep : List Char) : List Char → Option (List Char × List Char)
  | [] => none
  | c :: rest =>
    if sep.isPrefixOf (c :: rest) then
      some ([], List.drop sep.length (c :: rest))
    else
      match breakOn sep rest with
      | none => none
      | some (pre, post) => some (c :: pre, post)

/-- Python `sep in s` (for the non-empty separators the source uses). -/
def hasSub (sep l : List Char) : Bool :=
  (breakOn sep l).isSome

/-- Python `s.split(sep)[1]`: the piece between the first occurrence of
`sep` and the next one (or the end of the string); `none` when `sep`
does not occur at all. -/
def pyField1 (sep l : List Char) : Option (List Char) :=
  match breakOn sep l with
  | none => none
  | some (_, post) =>
    match breakOn sep post with
    | none => some post
    | some (pre2, _) => some pre2

/-- The whitespace characters removed by Python `str.strip()` (ASCII). -/
def isStripWS (c : Char) : Bool :=
  c = ' ' || c = '\t' || c = '\n' || c = '\r' || c = '\x0b' || c = '\x0c'

/-- Python `s.strip()`: drop whitespace from both ends. -/
def pyStrip (l : List Char) : List Char :=
  List.rdropWhile isStripWS (List.dropWhile isStripWS l)

/-- Python `s.split(chr(10))[0]`: everything before the first newline. -/
def pyFirstLine (l : List Char) : List Char :=
  List.takeWhile (fun c => !(c = '\n')) l

/-- Python `s.replace(chr(42), empty)`: remove every asterisk. -/
def pyStripStars (l : List Char) : List Char :=
  List.filter (fun c => !(c = '*')) l

/-! ## The response parser (src/app.py lines 217-226) -/

/-- The three fields the Patient Kiosk extracts from the model's text. -/
structure ParsedL where
  summary : List Char
  specialist : List Char
  advice : List Char
deriving Repr, DecidableEq

def mSUMMARY : List Char := "SUMMARY:".data

def mSPECIALIST : List Char := "SPECIALIST:".data

def mADVICE : List Char := "ADVICE:".data

/-- The defaults assigned at line 217 of src/app.py. -/
def defaultFields : ParsedL :=
  ⟨"Report Analyzed.".data, "General Physician".data, "Consultation recommended.".data⟩

/-- The parsing block, lines 217-223 of src/app.py:

    summary, specialist, advice = defaults
    if "SUMMARY:" in text:
        parts = text.split("SUMMARY:")[1]
        if "SPECIALIST:" in parts:
            summary, rest = parts.split("SPECIALIST:", 1)
            if "ADVICE:" in rest:
                specialist, advice = rest.split("ADVICE:", 1)
-/
def parseFieldsL (text : List Char) : ParsedL :=
  match pyField1 mSUMMARY text with
  | none => defaultFields
  | some parts =>
    match breakOn mSPECIALIST parts with
    | none => defaultFields
    | some (summary, rest) =>
      match breakOn mADVICE rest with
      | none => { defaultFields with summary := summary }
      | some (specialist, advice) => ⟨summary, specialist, advice⟩

/-- Line 226 of src/app.py:
`specialist.strip().split(chr(10))[0].replace(chr(42), empty)`. -/
def normalizeSpecialistL (l : List Char) : List Char :=
  pyStripStars (pyFirstLine (pyStrip l))

/-- The parser result as stored into the session at lines 225-226:
the summary and advice raw, the specialist normalized. -/
def sessionFieldsL (text : List Char) : ParsedL :=
  let p := parseFieldsL text
  ⟨p.summary, normalizeSpecialistL p.specialist, p.advice⟩

/-- String-level wrapper for the parsing block. -/
structure Parsed where
  summary : String
  specialist : String
  advice : String
deriving Repr, DecidableEq

def parseResponse (text : String) : Parsed :=
  let p := parseFieldsL text.data
  ⟨⟨p.summary⟩, ⟨p.specialist⟩, ⟨p.advice⟩⟩

def normalizeSpecialist (s : String) : String :=
  ⟨normalizeSpecialistL s.data⟩

def parseForSession (text : String) : Parsed :=
  let p := parseResponse text
  ⟨p.summary, normalizeSpecialist p.specialist, p.advice⟩

/-! ## Grounding/source extraction (src/app.py lines 229-236)

    sources = "Verified via Google."
    try:
        if response.candidates[0].grounding_metadata.grounding_chunks:
            sources = ""
            for i, c in enumerate(...grounding_chunks):
                if c.web: sources += f-string of i+1, c.web.title, c.web.uri
    except: pass

A grounding chunk either carries a web citation, carries none (the
`if c.web` test is falsy), or raises when its `web` attribute is read;
the initial metadata access itself may raise.  The bare `except: pass`
catches everything, so an exception aborts the block and keeps whatever
value `sources` holds at that point. -/

inductive Chunk where
  | web (title uri : String)
  | noWeb
  | webRaises
deriving Repr, DecidableEq

inductive MetaResult where
  | accessRaises
  | chunks (cs : List Chunk)
deriving Repr, DecidableEq

/-- The enumerate loop: accumulates the numbered citation lines; a raising
chunk aborts the loop (the exception is swallowed by `except: pass`),
keeping the partial accumulator. -/
def sourcesLoop : List Chunk → Nat → String → String
  | [], _, acc => acc
  | Chunk.web t u :: rest, i, acc =>
      sourcesLoop rest (i + 1) (acc ++ toString (i + 1) ++ ". " ++ t ++ ": " ++ u ++ "\n")
  | Chunk.noWeb :: rest, i, acc => sourcesLoop rest (i + 1) acc
  | Chunk.webRaises :: _, _, acc => acc

def sourcesFallback : String := "Verified via Google."

def extractSources : MetaResult → String
  | MetaResult.accessRaises => sourcesFallback
  | MetaResult.chunks cs =>
      if cs.isEmpty then sourcesFallback else sourcesLoop cs 0 ""

/-! ## Report composer result shape (src/app.py lines 129-182)

The PDF build and upload is a chain of external-library calls inside one
try; the workflow only observes its returned pair: `(local_path, gs_link)`
on success, `(None, str(e))` on any failure. -/

def create_professional_pdf (succeeds : Bool) (localPath gsLink err : String) :
    Option String × String :=
  if succeeds then (some localPath, gsLink) else (none, err)

/-! ## Workflow state machine (src/app.py lines 189-302)

Session state mirrors the `st.session_state` keys; the `World` collects
the externally observable side effects of one session: the appointments
collection, the number of hospital-calendar insert calls, the personal
calendar links shown, the download buttons offered, the validation
warnings, and whether an uncaught exception aborted a script run. -/

structure BookingRecord where
  patient_email : String
  specialist : String
  doctor_name : String
  status : String
  timestamp : Nat
deriving Repr, DecidableEq

structure SessionState where
  analysis_result : Option String
  specialist_type : String
  user_city : String
  sources_clean : Option String
  authenticated : Bool
deriving Repr, DecidableEq

structure World where
  appointments : List BookingRecord
  calendarInserts : Nat
  linksShown : Nat
  downloadsOffered : Nat
  warnings : Nat
  crashed : Bool
deriving Repr, DecidableEq

/-- Lines 191-194 and 111: the session defaults. -/
def initSession : SessionState :=
  ⟨none, "General Physician", "Hyderabad", none, false⟩

def initWorld : World :=
  ⟨[], 0, 0, 0, 0, false⟩

/-- Python truthiness of a string: non-empty. -/
def pyTruthyStr (s : String) : Bool :=
  decide (s ≠ "")

/-- Python truthiness of `st.session_state.analysis_result`
(`None` initially, a string after an analysis). -/
def pyTruthy : Option String → Bool
  | none => false
  | some s => pyTruthyStr s

/-- Python `pwd == ADMIN_PASSWORD` where the stored secret is a string or
`None` (when the vault fetch failed): comparing a string against `None`
is `False`, it does not raise. -/
def pyEqOptStr : Option String → String → Bool
  | none, _ => false
  | some a, pwd => decide (pwd = a)

/-- The analyze handler, lines 204-243, on the success path of the model
call: parse the text (lines 217-223), store summary / normalized
specialist / city / sources (lines 225-236), then build the analysis PDF
and offer the download only when the returned path is non-null
(lines 240-243). -/
def analyzeStep (text : String) (meta : MetaResult) (cityInput : String)
    (pdfPath : Option String) (s : SessionState) (w : World) :
    SessionState × World :=
  let p := parseResponse text
  ({ s with
      analysis_result := some p.summary,
      specialist_type := normalizeSpecialist p.specialist,
      user_city := cityInput,
      sources_clean := some (extractSources meta) },
   match pdfPath with
   | some _ => { w with downloadsOffered := w.downloadsOffered + 1 }
   | none => w)

/-- The booking submit handler, lines 277-301.  `analysisGate` is the
truthiness test of line 248, `calendarOk` the boolean returned by
`block_hospital_calendar` (line 281; the handler never inspects it),
`pdfPath` the local path returned by `create_professional_pdf`
(line 298).  Line 299 runs `open(path, "rb")` without a null check, so a
null path raises an uncaught `TypeError` and aborts the script run. -/
def bookingEffects (pEmail docName specialist : String) (analysisGate : Bool)
    (calendarOk : Bool) (pdfPath : Option String) (now : Nat) (w : World) : World :=
  if analysisGate then
    if pyTruthyStr pEmail && pyTruthyStr docName then
      let w1 := { w with
        calendarInserts := w.calendarInserts + 1,
        linksShown := w.linksShown + 1,
        appointments := w.appointments ++ [BookingRecord.mk pEmail specialist docName "Confirmed" now] }
      match pdfPath with
      | some _ => { w1 with downloadsOffered := w1.downloadsOffered + 1 }
      | none => { w1 with crashed := true }
    else { w with warnings := w.warnings + 1 }
  else { w with warnings := w.warnings + 1 }

/-- The tab-2 handler never mutates the session state; all its effects are
on the outside world. -/
def bookingStep (pEmail docName : String) (calendarOk : Bool)
    (pdfPath : Option String) (now : Nat) (s : SessionState) (w : World) :
    SessionState × World :=
  (s, bookingEffects pEmail docName s.specialist_type
        (pyTruthy s.analysis_result) calendarOk pdfPath now w)

/-- User interactions of one session, each running one synchronous script
pass: a successful model call with its grounding metadata and the PDF
outcome, a failed model call (caught at line 244, no state change), a
booking-form submission, an admin login attempt, a logout. -/
inductive Event where
  | analyze (text : String) (meta : MetaResult) (city : String) (pdf : Option String)
  | analyzeFail
  | book (pEmail docName : String) (calendarOk : Bool) (pdf : Option String) (now : Nat)
  | login (pwd : String)
  | logout
deriving Repr

/-- One interaction step, parameterized by the (possibly null) admin
password secret fetched at startup. -/
def step (adminPassword : Option String) :
    SessionState × World → Event → SessionState × World
  | (s, w), Event.analyze text meta city pdf => analyzeStep text meta city pdf s w
  | (s, w), Event.analyzeFail => (s, w)
  | (s, w), Event.book pe dn cal pdf now => bookingStep pe dn cal pdf now s w
  | (s, w), Event.login pwd =>
      if pyEqOptStr adminPassword pwd then ({ s with authenticated := true }, w)
      else (s, w)
  | (s, w), Event.logout => ({ s with authenticated := false }, w)

/-- A whole session from the initial state. -/
def run (adminPassword : Option String) (evs : List Event) :
    SessionState × World :=
  evs.foldl (step adminPassword) (initSession, initWorld)

/-! ## Lemmas about the split primitives -/

theorem breakOn_sound (sep : List Char) :
    ∀ l pre post, breakOn sep l = some (pre, post) → l = pre ++ (sep ++ post) := by
  intro l
  induction l with
  | nil => intro pre post h; simp [breakOn] at h
  | cons c rest ih =>
    intro pre post h
    by_cases hp : sep.isPrefixOf (c :: rest)
    · rw [breakOn, if_pos hp] at h
      simp only [Option.some.injEq, Prod.mk.injEq] at h
      obtain ⟨h1, h2⟩ := h
      obtain ⟨t, ht⟩ := List.isPrefixOf_iff_prefix.mp hp
      subst h1
      have hdrop : List.drop sep.length (c :: rest) = t := by
        rw [← ht, List.drop_left]
      rw [hdrop] at h2
      subst h2
      simpa using ht.symm
    · rw [breakOn, if_neg hp] at h
      cases hb : breakOn sep rest with
      | none => rw [hb] at h; simp at h
      | some pq =>
        obtain ⟨p1, q1⟩ := pq
        rw [hb] at h
        simp only [Option.some.injEq, Prod.mk.injEq] at h
        obtain ⟨h1, h2⟩ := h
        subst h1; subst h2
        have hr := ih p1 q1 hb
        simp [hr]

theorem breakOn_eq_none (sep l : List Char) (h : hasSub sep l = false) :
    breakOn sep l = none := by
  unfold hasSub at h
  cases hb : breakOn sep l with
  | none => rfl
  | some pq => rw [hb] at h; simp at h

theorem hasSub_of_breakOn (sep l : List Char) {pq}
    (h : breakOn sep l = some pq) : hasSub sep l = true := by
  unfold hasSub
  rw [h]; rfl

theorem hasSub_append (sep x y : List Char) (hsep : sep ≠ []) :
    hasSub sep (x ++ (sep ++ y)) = true := by
  induction x with
  | nil =>
    cases sep with
    | nil => exact absurd rfl hsep
    | cons s ss =>
      have hp : (s :: ss).isPrefixOf (s :: (ss ++ y)) = true := by
        rw [ List.isPrefixOf_iff_prefix]
        exact ⟨y, by simp⟩
      simp only [List.nil_append, List.cons_append]
      unfold hasSub breakOn
      rw [hp]
      simp
  | cons a x' ih =>
    simp only [List.cons_append]
    unfold hasSub breakOn
    by_cases hp : sep.isPrefixOf (a :: (x' ++ (sep ++ y)))
    · rw [hp]; simp
    · rw [Bool.eq_false_iff.mpr hp]
      simp only [Bool.false_eq_true, if_false]
      unfold hasSub at ih
      cases hb : breakOn sep (x' ++ (sep ++ y)) with
      | none => rw [hb] at ih; simp at ih
      | some pq => simp

/-- If `sep` starts nowhere strictly inside `A`, the first occurrence of
`sep` in `A ++ sep ++ B` is exactly at the end of `A`. -/
theorem breakOn_boundary (sep A B : List Char) (hsep : sep ≠ [])
    (h : ∀ i, i < A.length → sep.isPrefixOf (List.drop i A ++ (sep ++ B)) = false) :
    breakOn sep (A ++ (sep ++ B)) = some (A, B) := by
  induction A with
  | nil =>
    cases sep with
    | nil => exact absurd rfl hsep
    | cons s ss =>
      have hp : (s :: ss).isPrefixOf (s :: (ss ++ B)) = true := by
        rw [ List.isPrefixOf_iff_prefix]
        exact ⟨B, by simp⟩
      simp only [List.nil_append, List.cons_append]
      rw [breakOn, hp]
      simp only [if_true]
      have : List.drop (s :: ss).length (s :: (ss ++ B)) = B := by
        have : s :: (ss ++ B) = (s :: ss) ++ B := by simp
        rw [this, List.drop_left]
      rw [this]
  | cons a A' ih =>
    have h0 : sep.isPrefixOf ((a :: A') ++ (sep ++ B)) = false := by
      have := h 0 (by simp)
      simpa using this
    have ih' : breakOn sep (A' ++ (sep ++ B)) = some (A', B) := by
      apply ih
      intro i hi
      have := h (i + 1) (by simpa using Nat.succ_lt_succ hi)
      simpa [List.drop_succ_cons] using this
    simp only [List.cons_append]
    rw [breakOn]
    rw [show sep.isPrefixOf (a :: (A' ++ (sep ++ B))) = false from by
      simpa using h0]
    simp only [Bool.false_eq_true, if_false]
    rw [ih']

/-! ## Lemmas about the specialist normalization -/

theorem dropWhile_rdropWhile_self (p : Char → Bool) (a : List Char)
    (ha : List.dropWhile p a = a) :
    List.dropWhile p (List.rdropWhile p a) = List.rdropWhile p a := by
  rw [List.dropWhile_eq_self_iff]
  intro h0
  have hpre := List.rdropWhile_prefix p a
  have hlen : 0 < a.length := lt_of_lt_of_le h0 hpre.length_le
  have hself := List.dropWhile_eq_self_iff.mp ha hlen
  have hg : (List.rdropWhile p a).get ⟨0, h0⟩ = a.get ⟨0, hlen⟩ := by
    simpa [List.get_eq_getElem] using hpre.getElem (n := 0) h0
  rw [hg]
  exact hself

theorem pyStrip_idem (l : List Char) : pyStrip (pyStrip l) = pyStrip l := by
  unfold pyStrip
  rw [dropWhile_rdropWhile_self _ _ (List.dropWhile_idempotent _ _),
      List.rdropWhile_idempotent]

theorem mem_pyStrip {c : Char} {l : List Char} (h : c ∈ pyStrip l) : c ∈ l := by
  unfold pyStrip at h
  exact (List.dropWhile_suffix _).subset (( List.rdropWhile_prefix _ _).subset h)

theorem normalizeSpecialistL_of_clean (l : List Char)
    (hnl : ∀ c ∈ l, c ≠ '\n') (hst : ∀ c ∈ l, c ≠ '*') :
    normalizeSpecialistL l = pyStrip l := by
  unfold normalizeSpecialistL
  have h1 : pyFirstLine (pyStrip l) = pyStrip l := by
    unfold pyFirstLine
    rw [List.takeWhile_eq_self_iff]
    intro x hx
    simp [hnl x (mem_pyStrip hx)]
  rw [h1]
  unfold pyStripStars
  rw [List.filter_eq_self]
  intro x hx
  simp [hst x (mem_pyStrip hx)]

theorem normalizeSpecialistL_no_nl (l : List Char) :
    ∀ c ∈ normalizeSpecialistL l, c ≠ '\n' := by
  intro c hc
  unfold normalizeSpecialistL pyStripStars at hc
  have hc1 := (List.mem_filter.mp hc).1
  unfold pyFirstLine at hc1
  have := List.mem_takeWhile_imp hc1
  simpa using this

theorem normalizeSpecialistL_no_star (l : List Char) :
    ∀ c ∈ normalizeSpecialistL l, c ≠ '*' := by
  intro c hc
  unfold normalizeSpecialistL pyStripStars at hc
  have := (List.mem_filter.mp hc).2
  simpa using this

theorem normalizeSpecialistL_normalize (l : List Char) :
    normalizeSpecialistL (normalizeSpecialistL l) = pyStrip (normalizeSpecialistL l) :=
  normalizeSpecialistL_of_clean _ (normalizeSpecialistL_no_nl l)
    (normalizeSpecialistL_no_star l)

theorem hasSub_of_hasSub_append (sep : List Char) (hsep : sep ≠ []) (x m y : List Char)
    (h : hasSub sep m = true) : hasSub sep (x ++ (m ++ y)) = true := by
  obtain ⟨⟨a, b⟩, hb⟩ : ∃ pq, breakOn sep m = some pq := by
    unfold hasSub at h
    cases hbb : breakOn sep m with
    | none => rw [hbb] at h; simp at h
    | some pq => exact ⟨pq, rfl⟩
  have hm : m = a ++ (sep ++ b) := breakOn_sound _ _ _ _ hb
  rw [hm]
  have hre : x ++ ((a ++ (sep ++ b)) ++ y) = (x ++ a) ++ (sep ++ (b ++ y)) := by
    simp [List.append_assoc]
  rw [hre]
  exact hasSub_append _ _ _ hsep

theorem hasSub_part_false (sep : List Char) (hsep : sep ≠ []) (x m y : List Char)
    (h : hasSub sep (x ++ (m ++ y)) = false) : hasSub sep m = false := by
  by_contra hx
  rw [hasSub_of_hasSub_append sep hsep x m y (eq_true_of_ne_false hx)] at h
  simp at h

theorem normalizeSpecialistL_triple (l : List Char) :
    normalizeSpecialistL (normalizeSpecialistL (normalizeSpecialistL l)) =
      normalizeSpecialistL (normalizeSpecialistL l) := by
  calc normalizeSpecialistL (normalizeSpecialistL (normalizeSpecialistL l))
      = pyStrip (normalizeSpecialistL (normalizeSpecialistL l)) :=
        normalizeSpecialistL_normalize (normalizeSpecialistL l)
    _ = pyStrip (pyStrip (normalizeSpecialistL l)) := by
        rw [normalizeSpecialistL_normalize l]
    _ = pyStrip (normalizeSpecialistL l) := pyStrip_idem _
    _ = normalizeSpecialistL (normalizeSpecialistL l) :=
        (normalizeSpecialistL_normalize l).symm

/-! ## Claim C1: parsing with all three markers present -/

/-- C1, counterexample to the claim as stated: on the spec's own
end-to-end input the parser keeps the whitespace around the summary and
the advice, so the result is not (summary="Mild fracture",
advice="See a doctor"); only the specialist is trimmed. -/
theorem claim_C1_counterexample :
    parseForSession "SUMMARY: Mild fracture SPECIALIST: Orthopedist ADVICE: See a doctor" =
      ⟨" Mild fracture ", "Orthopedist", " See a doctor"⟩ ∧
    (parseForSession "SUMMARY: Mild fracture SPECIALIST: Orthopedist ADVICE: See a doctor").summary ≠
      "Mild fracture" ∧
    (parseForSession "SUMMARY: Mild fracture SPECIALIST: Orthopedist ADVICE: See a doctor").advice ≠
      "See a doctor" := by
  decide

/-- C1 (amended): for text of the form
A ++ "SUMMARY:" ++ B ++ "SPECIALIST:" ++ C ++ "ADVICE:" ++ D, where
"SUMMARY:" starts nowhere inside A and does not reoccur after it, and
"SPECIALIST:" / "ADVICE:" first occur at the shown positions, the parser
returns summary = B and advice = D exactly as they stand (whitespace
kept), and the session specialist is the normalized C (trimmed, first
line, asterisks removed). -/
theorem claim_C1_parser_full_markers (A B C D : List Char)
    (hS1 : ∀ i, i < A.length →
      mSUMMARY.isPrefixOf
        (List.drop i A ++ (mSUMMARY ++ (B ++ (mSPECIALIST ++ (C ++ (mADVICE ++ D)))))) = false)
    (hS2 : hasSub mSUMMARY (B ++ (mSPECIALIST ++ (C ++ (mADVICE ++ D)))) = false)
    (hP : ∀ i, i < B.length →
      mSPECIALIST.isPrefixOf (List.drop i B ++ (mSPECIALIST ++ (C ++ (mADVICE ++ D)))) = false)
    (hV : ∀ i, i < C.length →
      mADVICE.isPrefixOf (List.drop i C ++ (mADVICE ++ D)) = false) :
    parseFieldsL (A ++ (mSUMMARY ++ (B ++ (mSPECIALIST ++ (C ++ (mADVICE ++ D)))))) =
      ⟨B, C, D⟩ ∧
    sessionFieldsL (A ++ (mSUMMARY ++ (B ++ (mSPECIALIST ++ (C ++ (mADVICE ++ D)))))) =
      ⟨B, normalizeSpecialistL C, D⟩ := by
  have h1 : breakOn mSUMMARY (A ++ (mSUMMARY ++ (B ++ (mSPECIALIST ++ (C ++ (mADVICE ++ D)))))) =
      some (A, B ++ (mSPECIALIST ++ (C ++ (mADVICE ++ D)))) :=
    breakOn_boundary _ _ _ (by decide) hS1
  have h2 : breakOn mSUMMARY (B ++ (mSPECIALIST ++ (C ++ (mADVICE ++ D)))) = none :=
    breakOn_eq_none _ _ hS2
  have h3 : breakOn mSPECIALIST (B ++ (mSPECIALIST ++ (C ++ (mADVICE ++ D)))) =
      some (B, C ++ (mADVICE ++ D)) :=
    breakOn_boundary _ _ _ (by decide) hP
  have h4 : breakOn mADVICE (C ++ (mADVICE ++ D)) = some (C, D) :=
    breakOn_boundary _ _ _ (by decide) hV
  have hfield : pyField1 mSUMMARY
      (A ++ (mSUMMARY ++ (B ++ (mSPECIALIST ++ (C ++ (mADVICE ++ D)))))) =
      some (B ++ (mSPECIALIST ++ (C ++ (mADVICE ++ D)))) := by
    simp only [pyField1, h1, h2]
  have hmain : parseFieldsL (A ++ (mSUMMARY ++ (B ++ (mSPECIALIST ++ (C ++ (mADVICE ++ D)))))) =
      ⟨B, C, D⟩ := by
    simp only [parseFieldsL, hfield, h3, h4]
  refine ⟨hmain, ?_⟩
  simp only [sessionFieldsL, hmain]

/-- C1 witness: the amended theorem applied at a concrete instance. -/
theorem claim_C1_witness :
    hasSub mSUMMARY (" Mild fracture ".data ++ (mSPECIALIST ++ (" Orthopedist ".data ++ (mADVICE ++ " See a doctor".data)))) = false ∧
    sessionFieldsL ("x ".data ++ (mSUMMARY ++ (" Mild fracture ".data ++ (mSPECIALIST ++ (" Orthopedist ".data ++ (mADVICE ++ " See a doctor".data)))))) =
      ⟨" Mild fracture ".data, normalizeSpecialistL " Orthopedist ".data, " See a doctor".data⟩ :=
  ⟨by decide,
   (claim_C1_parser_full_markers ("x ".data) (" Mild fracture ".data)
      (" Orthopedist ".data) (" See a doctor".data)
      (by decide) (by decide) (by decide) (by decide)).2⟩

/-! ## Claim C2: SUMMARY: present, SPECIALIST: absent -/

/-- C2, counterexample to the claim as stated: with "SUMMARY:" present
and "SPECIALIST:" absent the summary is NOT the text following
"SUMMARY:" — line 221 only assigns the summary when "SPECIALIST:" is
also found, so the default "Report Analyzed." survives. -/
theorem claim_C2_counterexample :
    parseResponse "SUMMARY: hello" =
      ⟨"Report Analyzed.", "General Physician", "Consultation recommended."⟩ ∧
    (parseResponse "SUMMARY: hello").summary ≠ " hello" ∧
    (parseResponse "SUMMARY: hello").summary ≠ "hello" := by
  decide

/-- C2 (amended): for every text containing "SUMMARY:" but not
"SPECIALIST:", the parser returns ALL THREE defaults — the summary also
keeps its default "Report Analyzed.", it is not replaced by the text
following "SUMMARY:". -/
theorem claim_C2_summary_without_specialist (t : List Char)
    (h1 : hasSub mSUMMARY t = true)
    (h2 : hasSub mSPECIALIST t = false) :
    parseFieldsL t = defaultFields := by
  obtain ⟨⟨pre, post⟩, hb⟩ : ∃ pq, breakOn mSUMMARY t = some pq := by
    unfold hasSub at h1
    cases hbb : breakOn mSUMMARY t with
    | none => rw [hbb] at h1; simp at h1
    | some pq => exact ⟨pq, rfl⟩
  have ht : t = pre ++ (mSUMMARY ++ post) := breakOn_sound _ _ _ _ hb
  cases hb2 : breakOn mSUMMARY post with
  | none =>
    have hfield : pyField1 mSUMMARY t = some post := by
      simp only [pyField1, hb, hb2]
    have hpost : hasSub mSPECIALIST post = false := by
      apply hasSub_part_false mSPECIALIST (by decide) (pre ++ mSUMMARY) post []
      have he : (pre ++ mSUMMARY) ++ (post ++ []) = t := by
        rw [ht]; simp
      rw [he]
      exact h2
    simp only [parseFieldsL, hfield, breakOn_eq_none _ _ hpost]
  | some pq2 =>
    obtain ⟨pre2, post2⟩ := pq2
    have hfield : pyField1 mSUMMARY t = some pre2 := by
      simp only [pyField1, hb, hb2]
    have hpost : post = pre2 ++ (mSUMMARY ++ post2) := breakOn_sound _ _ _ _ hb2
    have hpre2 : hasSub mSPECIALIST pre2 = false := by
      apply hasSub_part_false mSPECIALIST (by decide) (pre ++ mSUMMARY) pre2 (mSUMMARY ++ post2)
      have he : (pre ++ mSUMMARY) ++ (pre2 ++ (mSUMMARY ++ post2)) = t := by
        rw [ht, hpost]; simp
      rw [he]
      exact h2
    simp only [parseFieldsL, hfield, breakOn_eq_none _ _ hpre2]

/-- C2 witness: the amended theorem applied at a concrete input. -/
theorem claim_C2_witness :
    (hasSub mSUMMARY ("SUMMARY: hello".data) = true ∧
     hasSub mSPECIALIST ("SUMMARY: hello".data) = false) ∧
    parseFieldsL ("SUMMARY: hello".data) = defaultFields :=
  ⟨⟨by decide, by decide⟩,
   claim_C2_summary_without_specialist ("SUMMARY: hello".data) (by decide) (by decide)⟩

/-! ## Claim C3: SUMMARY: and SPECIALIST: present, ADVICE: absent -/

/-- C3, counterexample to the claim as stated: with "ADVICE:" absent the
specialist is NOT taken from the remaining text — line 223 only assigns
it when "ADVICE:" is found, so the default "General Physician" survives
(the summary, however, is assigned at line 221). -/
theorem claim_C3_counterexample :
    parseResponse "SUMMARY: a SPECIALIST: Cardiologist" =
      ⟨" a ", "General Physician", "Consultation recommended."⟩ ∧
    (parseResponse "SUMMARY: a SPECIALIST: Cardiologist").specialist ≠ " Cardiologist" ∧
    (parseResponse "SUMMARY: a SPECIALIST: Cardiologist").specialist ≠ "Cardiologist" := by
  decide

/-- C3 (amended): for text of the form
A ++ "SUMMARY:" ++ B ++ "SPECIALIST:" ++ C with "ADVICE:" absent from C,
the summary is taken from the text between the markers while BOTH the
specialist and the advice keep their defaults ("General Physician",
"Consultation recommended."). -/
theorem claim_C3_specialist_without_advice (A B C : List Char)
    (hS1 : ∀ i, i < A.length →
      mSUMMARY.isPrefixOf (List.drop i A ++ (mSUMMARY ++ (B ++ (mSPECIALIST ++ C)))) = false)
    (hS2 : hasSub mSUMMARY (B ++ (mSPECIALIST ++ C)) = false)
    (hP : ∀ i, i < B.length →
      mSPECIALIST.isPrefixOf (List.drop i B ++ (mSPECIALIST ++ C)) = false)
    (hV : hasSub mADVICE C = false) :
    parseFieldsL (A ++ (mSUMMARY ++ (B ++ (mSPECIALIST ++ C)))) =
      ⟨B, defaultFields.specialist, defaultFields.advice⟩ := by
  have h1 : breakOn mSUMMARY (A ++ (mSUMMARY ++ (B ++ (mSPECIALIST ++ C)))) =
      some (A, B ++ (mSPECIALIST ++ C)) :=
    breakOn_boundary _ _ _ (by decide) hS1
  have h2 : breakOn mSUMMARY (B ++ (mSPECIALIST ++ C)) = none :=
    breakOn_eq_none _ _ hS2
  have h3 : breakOn mSPECIALIST (B ++ (mSPECIALIST ++ C)) = some (B, C) :=
    breakOn_boundary _ _ _ (by decide) hP
  have h4 : breakOn mADVICE C = none := breakOn_eq_none _ _ hV
  have hfield : pyField1 mSUMMARY (A ++ (mSUMMARY ++ (B ++ (mSPECIALIST ++ C)))) =
      some (B ++ (mSPECIALIST ++ C)) := by
    simp only [pyField1, h1, h2]
  simp only [parseFieldsL, hfield, h3, h4]

/-- C3 witness: the amended theorem applied at a concrete instance. -/
theorem claim_C3_witness :
    hasSub mADVICE (" Cardiologist".data) = false ∧
    parseFieldsL ("".data ++ (mSUMMARY ++ (" a ".data ++ (mSPECIALIST ++ " Cardiologist".data)))) =
      ⟨" a ".data, defaultFields.specialist, defaultFields.advice⟩ :=
  ⟨by decide,
   claim_C3_specialist_without_advice ("".data) (" a ".data) (" Cardiologist".data)
     (by decide) (by decide) (by decide) (by decide)⟩

/-! ## Claim C9: specialist normalization idempotence -/

/-- C9, counterexample to the claim as stated: stripping the asterisks
can expose new leading/trailing whitespace, so one more normalization
pass changes the string again — normalization is not idempotent. -/
theorem claim_C9_counterexample :
    normalizeSpecialist (normalizeSpecialist "* Cardiologist *") ≠
      normalizeSpecialist "* Cardiologist *" ∧
    normalizeSpecialist "* Cardiologist *" = " Cardiologist " := by
  decide

/-- C9 (amended): normalization stabilizes after two passes — applying
it a third time returns the twice-normalized string unchanged (a single
pass is not idempotent, as asterisk removal or the first-line cut can
leave fresh boundary whitespace). -/
theorem claim_C9_normalize_stabilizes (s : String) :
    normalizeSpecialist (normalizeSpecialist (normalizeSpecialist s)) =
      normalizeSpecialist (normalizeSpecialist s) := by
  unfold normalizeSpecialist
  exact congrArg String.mk (normalizeSpecialistL_triple s.data)

/-! ## Claim C7: grounding/source extraction fallback -/

theorem sourcesLoop_stop (r : List Chunk) :
    ∀ (l : List Chunk) (i : Nat) (acc : String),
    sourcesLoop (l ++ (Chunk.webRaises :: r)) i acc =
      sourcesLoop (l ++ [Chunk.webRaises]) i acc := by
  intro l
  induction l with
  | nil => intro i acc; rfl
  | cons c l' ih =>
    intro i acc
    cases c <;> simp [sourcesLoop, ih]

/-- C7, counterexample to the claim as stated: an exception thrown while
reading a chunk's web attribute mid-loop is swallowed by the bare
`except: pass` AFTER `sources` has been reset and partially rebuilt, so
the result is the partial list, not the fallback string. -/
theorem claim_C7_counterexample :
    extractSources (MetaResult.chunks [Chunk.web "WebMD" "someuri", Chunk.webRaises]) ≠
      sourcesFallback ∧
    extractSources (MetaResult.chunks [Chunk.web "WebMD" "someuri", Chunk.webRaises]) =
      "1. WebMD: someuri\n" := by
  constructor
  · decide
  · rfl

/-- C7 (amended): the extraction is a total function (it never raises);
a failure of the initial grounding-metadata/chunk-list access, and the
no-chunks case, both yield the literal "Verified via Google."; an
exception during chunk iteration instead keeps the partially
accumulated list — everything from the raising chunk on is ignored. -/
theorem claim_C7_sources_fallback :
    extractSources MetaResult.accessRaises = sourcesFallback ∧
    extractSources (MetaResult.chunks []) = sourcesFallback ∧
    ∀ (l r : List Chunk),
      extractSources (MetaResult.chunks (l ++ (Chunk.webRaises :: r))) =
        extractSources (MetaResult.chunks (l ++ [Chunk.webRaises])) := by
  refine ⟨rfl, rfl, ?_⟩
  intro l r
  have h1 : (l ++ (Chunk.webRaises :: r)).isEmpty = false := by
    cases l <;> rfl
  have h2 : (l ++ [Chunk.webRaises]).isEmpty = false := by
    cases l <;> rfl
  simp only [extractSources, h1, h2, Bool.false_eq_true, if_false]
  exact sourcesLoop_stop r l 0 ""

/-! ## Claim C4: a failing calendar write does not block the booking -/

/-- C4: for a booking submission with non-empty email and doctor name in
a session holding an analysis result, a failing hospital-calendar write
still appends exactly one "Confirmed" BookingRecord stamped with the
current time, still offers the confirmation download (the composed PDF
path being non-null), leaves the crash flag untouched — and in fact the
whole step is independent of the calendar outcome, which line 281 never
inspects. -/
theorem claim_C4_calendar_failure_nonblocking (pEmail docName p : String) (now : Nat)
    (s : SessionState) (w : World)
    (hA : pyTruthy s.analysis_result = true)
    (hE : pEmail ≠ "") (hD : docName ≠ "") :
    (bookingStep pEmail docName false (some p) now s w).2.appointments =
      w.appointments ++ [BookingRecord.mk pEmail s.specialist_type docName "Confirmed" now] ∧
    (bookingStep pEmail docName false (some p) now s w).2.downloadsOffered =
      w.downloadsOffered + 1 ∧
    (bookingStep pEmail docName false (some p) now s w).2.crashed = w.crashed ∧
    ∀ (cal : Bool) (pdf : Option String),
      bookingStep pEmail docName cal pdf now s w =
        bookingStep pEmail docName true pdf now s w := by
  have hgate : (pyTruthyStr pEmail && pyTruthyStr docName) = true := by
    simp [pyTruthyStr, hE, hD]
  refine ⟨?_, ?_, ?_, fun cal pdf => rfl⟩ <;>
    simp [bookingStep, bookingEffects, hA, hgate]

/-- C4 witness: the theorem applied at a concrete booking. -/
theorem claim_C4_witness :
    pyTruthy (SessionState.mk (some "Report Analyzed.") "Orthopedist" "Hyderabad"
        (some "Verified via Google.") false).analysis_result = true ∧
    (bookingStep "a@x.com" "Dr. Rao" false (some "/tmp/r.pdf") 5
        (SessionState.mk (some "Report Analyzed.") "Orthopedist" "Hyderabad"
          (some "Verified via Google.") false) initWorld).2.appointments =
      initWorld.appointments ++
        [BookingRecord.mk "a@x.com" "Orthopedist" "Dr. Rao" "Confirmed" 5] :=
  ⟨by decide,
   (claim_C4_calendar_failure_nonblocking "a@x.com" "Dr. Rao" "/tmp/r.pdf" 5
      (SessionState.mk (some "Report Analyzed.") "Orthopedist" "Hyderabad"
        (some "Verified via Google.") false) initWorld
      (by decide) (by decide) (by decide)).1⟩

/-! ## Claim C5: empty email or doctor name aborts the submission -/

/-- C5: submitting the booking form with an empty patient email or an
empty doctor name produces no BookingRecord, never calls the calendar
integrator, shows no link, offers no download, and leaves the session
state unchanged — the only effect is one validation warning. -/
theorem claim_C5_empty_fields_no_effects (pEmail docName : String) (cal : Bool)
    (pdf : Option String) (now : Nat) (s : SessionState) (w : World)
    (h : pEmail = "" ∨ docName = "") :
    bookingStep pEmail docName cal pdf now s w =
      (s, { w with warnings := w.warnings + 1 }) := by
  unfold bookingStep bookingEffects
  cases hg : pyTruthy s.analysis_result
  · simp
  · have hgate : (pyTruthyStr pEmail && pyTruthyStr docName) = false := by
      rcases h with h | h <;> subst h <;> simp [pyTruthyStr]
    simp [hgate]

/-- C5 witness: the theorem applied at a concrete empty-email
submission. -/
theorem claim_C5_witness :
    (("" : String) = "" ∨ ("Dr. Rao" : String) = "") ∧
    bookingStep "" "Dr. Rao" true (some "/tmp/r.pdf") 5
        (SessionState.mk (some "Report Analyzed.") "Orthopedist" "Hyderabad"
          (some "Verified via Google.") false) initWorld =
      (SessionState.mk (some "Report Analyzed.") "Orthopedist" "Hyderabad"
          (some "Verified via Google.") false,
       { initWorld with warnings := initWorld.warnings + 1 }) :=
  ⟨Or.inl rfl,
   claim_C5_empty_fields_no_effects "" "Dr. Rao" true (some "/tmp/r.pdf") 5
     (SessionState.mk (some "Report Analyzed.") "Orthopedist" "Hyderabad"
       (some "Verified via Google.") false) initWorld (Or.inl rfl)⟩

/-! ## Claim C6: null PDF path handling by the two callers -/

/-- C6: the composer does return a null path with the error string, and
the tab-1 analysis caller (line 241, `if path:`) treats that as
non-fatal — but the tab-2 booking caller runs `open(path, "rb")` at
line 299 with no null check, so a failed booking-confirmation PDF
aborts the script run: the claim that EVERY caller treats the null path
as non-fatal is contradicted by the code at the failing input below. -/
theorem claim_C6_null_pdf_crashes_booking :
    (create_professional_pdf false "/tmp/x.pdf" "gs-link" "upload error" =
      (none, "upload error")) ∧
    (analyzeStep "t" MetaResult.accessRaises "Hyderabad" none initSession
        initWorld).2.crashed = false ∧
    (bookingStep "a@x.com" "Dr. Rao" true none 0
        (SessionState.mk (some "Report Analyzed.") "Orthopedist" "Hyderabad"
          (some "Verified via Google.") false) initWorld).2.crashed = true ∧
    (bookingStep "a@x.com" "Dr. Rao" true none 0
        (SessionState.mk (some "Report Analyzed.") "Orthopedist" "Hyderabad"
          (some "Verified via Google.") false) initWorld).2.downloadsOffered = 0 ∧
    (bookingStep "a@x.com" "Dr. Rao" true none 0
        (SessionState.mk (some "Report Analyzed.") "Orthopedist" "Hyderabad"
          (some "Verified via Google.") false) initWorld).2.appointments =
      [BookingRecord.mk "a@x.com" "Orthopedist" "Dr. Rao" "Confirmed" 0] := by
  refine ⟨rfl, ?_, ?_, ?_, ?_⟩ <;> decide

/-! ## Claim C8: booking only after a non-null analysis result -/

theorem step_preserves_booking_inv (admin : Option String) (s : SessionState)
    (w : World) (ev : Event)
    (h : w.appointments ≠ [] → s.analysis_result ≠ none) :
    (step admin (s, w) ev).2.appointments ≠ [] →
      (step admin (s, w) ev).1.analysis_result ≠ none := by
  cases ev with
  | analyze text meta city pdf =>
    intro _
    cases pdf <;> simp [step, analyzeStep]
  | analyzeFail => exact h
  | book pe dn cal pdf now =>
    intro hne
    by_cases hA : s.analysis_result = none
    · have happ : (bookingStep pe dn cal pdf now s w).2.appointments = w.appointments := by
        simp [bookingStep, bookingEffects, hA, pyTruthy]
      have := h (by simpa [step, happ] using hne)
      simpa [step, bookingStep] using this
    · simpa [step, bookingStep] using hA
  | login pwd =>
    intro hne
    by_cases hq : pyEqOptStr admin pwd = true
    · have := h (by simpa [step, hq] using hne)
      simpa [step, hq] using this
    · have hq' : pyEqOptStr admin pwd = false := by
        simpa using hq
      have := h (by simpa [step, hq'] using hne)
      simpa [step, hq'] using this
  | logout =>
    intro hne
    have := h (by simpa [step] using hne)
    simpa [step] using this

/-- C8: (a) submitting a booking in a session whose analysis_result is
null is rejected with only a warning (line 248's gate fails, line 302);
(b) along every event sequence from the initial session, a non-empty
appointments collection implies a non-null analysis_result — a booking
can only have happened after an analysis. -/
theorem claim_C8_booking_requires_analysis :
    (∀ (pe dn : String) (cal : Bool) (pdf : Option String) (now : Nat)
       (s : SessionState) (w : World), s.analysis_result = none →
       bookingStep pe dn cal pdf now s w = (s, { w with warnings := w.warnings + 1 })) ∧
    (∀ (admin : Option String) (evs : List Event),
       (run admin evs).2.appointments ≠ [] →
         (run admin evs).1.analysis_result ≠ none) := by
  constructor
  · intro pe dn cal pdf now s w hA
    simp [bookingStep, bookingEffects, hA, pyTruthy]
  · intro admin evs
    suffices hgen : ∀ (l : List Event) (s : SessionState) (w : World),
        (w.appointments ≠ [] → s.analysis_result ≠ none) →
        ((l.foldl (step admin) (s, w)).2.appointments ≠ [] →
          (l.foldl (step admin) (s, w)).1.analysis_result ≠ none) by
      exact hgen evs initSession initWorld (fun hne => absurd rfl hne)
    intro l
    induction l with
    | nil => intro s w h; simpa using h
    | cons e es ih =>
      intro s w h
      rw [List.foldl_cons]
      have hstep := step_preserves_booking_inv admin s w e h
      cases hst : step admin (s, w) e with
      | mk s2 w2 =>
        rw [hst] at hstep
        exact ih s2 w2 hstep

/-- C8 witness: the theorem applied at a concrete rejected submission
and at a concrete analyze-then-book trace. -/
theorem claim_C8_witness :
    bookingStep "a@x.com" "Dr. Rao" true (some "/tmp/r.pdf") 3 initSession initWorld =
      (initSession, { initWorld with warnings := initWorld.warnings + 1 }) ∧
    (run none [Event.analyze "x" (MetaResult.chunks []) "Hyderabad" (some "/tmp/r.pdf"),
               Event.book "a@x.com" "Dr. Rao" true (some "/tmp/r.pdf") 3]).1.analysis_result ≠
      none :=
  ⟨claim_C8_booking_requires_analysis.1 "a@x.com" "Dr. Rao" true (some "/tmp/r.pdf") 3
     initSession initWorld rfl,
   claim_C8_booking_requires_analysis.2 none
     [Event.analyze "x" (MetaResult.chunks []) "Hyderabad" (some "/tmp/r.pdf"),
      Event.book "a@x.com" "Dr. Rao" true (some "/tmp/r.pdf") 3] (by decide)⟩

/-! ## Claim C10: a null admin password denies all logins -/

theorem step_none_auth_false (s : SessionState) (w : World) (ev : Event)
    (h : s.authenticated = false) :
    ((step none (s, w) ev).1).authenticated = false := by
  cases ev with
  | analyze t m c p => simpa [step, analyzeStep] using h
  | analyzeFail => simpa [step] using h
  | book pe dn cal pdf now => simpa [step, bookingStep] using h
  | login pwd => simpa [step, pyEqOptStr] using h
  | logout => simp [step]

/-- C10: when the secret fetch failed and the stored admin password is
null, the comparison `pwd == ADMIN_PASSWORD` is False for every entered
string (including the empty string) rather than raising, so along every
event sequence the session's authenticated flag is never set to true. -/
theorem claim_C10_null_admin_password_denies :
    (∀ pwd : String, pyEqOptStr none pwd = false) ∧
    (∀ evs : List Event, (run none evs).1.authenticated = false) := by
  refine ⟨fun pwd => rfl, ?_⟩
  suffices hgen : ∀ (l : List Event) (s : SessionState) (w : World),
      s.authenticated = false →
      ((l.foldl (step none) (s, w)).1).authenticated = false by
    exact fun evs => hgen evs initSession initWorld rfl
  intro l
  induction l with
  | nil => intro s w h; simpa using h
  | cons e es ih =>
    intro s w h
    rw [List.foldl_cons]
    have hstep := step_none_auth_false s w e h
    cases hst : step none (s, w) e with
    | mk s2 w2 =>
      rw [hst] at hstep
      exact ih s2 w2 hstep

end MediScribe
